import Mathlib

/-!
Verification of the armyknife-cli headless-authentication core.

The definitions below are shallow embeddings of the Go source:
  - the OAuth 2.0 device-flow poller (internal/client, `pollForToken` /
    `checkToken`),
  - the persisted config store (internal/config, `Load` / `Config.Save` /
    `Config.IsAuthenticated`),
  - the auth CLI commands (cmd, `loginCmd` / `exchangePATForAPIKey` /
    `logoutCmd` / `isValidAPIKey` / `formatExpiryDate`).

Machine time is modelled in whole seconds; JSON bodies are modelled as the
structs the source unmarshals them into (field lists for the config file,
where the `omitempty` behaviour matters).
-/

namespace ArmyKnife

/-- A parsed token-check response body (Go struct `TokenResponse`):
`access_token`, `refresh_token`, `token_type`, `expires_in`, `error`.
A field missing from the JSON unmarshals to its zero value. -/
structure TokenResponse where
  access_token : String
  refresh_token : String
  token_type : String
  expires_in : Int
  error : String
deriving DecidableEq, Repr

/-- Classification step of `checkToken` after the body has been unmarshalled
(source lines 172-180): a non-empty `error` equal to `authorization_pending`
or `slow_down` is returned verbatim as the error message; any other
non-empty `error` becomes the message `token error: <error>`; otherwise the
response itself is returned.  Transport and parse failures happen before
this point and are outside the model (the poller receives parsed bodies). -/
def checkToken (r : TokenResponse) : Except String TokenResponse :=
  if r.error ≠ "" then
    if r.error = "authorization_pending" ∨ r.error = "slow_down" then
      Except.error r.error
    else
      Except.error ("token error: " ++ r.error)
  else
    Except.ok r

/-- Result of the poll loop.  `failure msg` models `return nil, err` with a
fatal error message, `timeout` models the `authorization timeout exceeded`
error, `fuelOut` is a modelling artefact proven unreachable for positive
intervals. -/
inductive PollResult where
  | success (tok : TokenResponse)
  | failure (msg : String)
  | timeout
  | fuelOut
deriving DecidableEq, Repr

/-- One execution of the ticker loop of `pollForToken` (source lines
114-134).  `resp k` is the parsed body of the k-th token-check call
(0-indexed); the ticker fires first at time `i`, so the k-th check happens
at wall-clock time `(k+1)*i` seconds after loop start, and the deadline is
`e` seconds after loop start.  Each tick first tests `time.Now().After
(timeout)` (strict), then calls `checkToken`; an error message equal to
`authorization_pending` or `slow_down` continues the loop, any other error
returns it; a non-error result is returned (`token` is never nil when `err`
is nil).  The second component is the index of the check at which the loop
returned. -/
def pollLoopAux (resp : Nat → TokenResponse) (i e : Nat) :
    Nat → Nat → PollResult × Nat
  | k, 0 => (PollResult.fuelOut, k)
  | k, fuel+1 =>
    if e < (k+1) * i then (PollResult.timeout, k)
    else
      match checkToken (resp k) with
      | Except.ok tok => (PollResult.success tok, k)
      | Except.error msg =>
        if msg = "authorization_pending" ∨ msg = "slow_down" then
          pollLoopAux resp i e (k+1) fuel
        else (PollResult.failure msg, k)

/-- `pollForToken` (source lines 104-135): run the ticker loop from the
first tick with enough fuel to reach the deadline. -/
def pollForToken (resp : Nat → TokenResponse) (i e : Nat) : PollResult :=
  (pollLoopAux resp i e 0 (e / i + 2)).1

/-- Index of the token check at which the poll loop returned (the loop
returns at wall-clock time `(idx+1)*i`). -/
def pollFinishIdx (resp : Nat → TokenResponse) (i e : Nat) : Nat :=
  (pollLoopAux resp i e 0 (e / i + 2)).2

/-- The persisted configuration struct (internal/config, source lines
464-469): `api_url` (no omitempty), and the three auth fields
`access_token`, `refresh_token`, `token_expiry`, all tagged `omitempty`.
There is no `token_type` field. -/
structure Config where
  APIURL : String
  AccessToken : String
  RefreshToken : String
  TokenExpiry : String
deriving DecidableEq, Repr

/-- `defaultConfig` (source lines 471-473): only the API URL is set. -/
def defaultConfig : Config :=
  { APIURL := "https://test.armyknifelabs.com/api/v1"
    AccessToken := ""
    RefreshToken := ""
    TokenExpiry := "" }

/-- The JSON object written by `json.MarshalIndent` on a `Config`, modelled
at the field level: `api_url` is always emitted, each `omitempty` field is
emitted only when non-empty. -/
def marshalConfig (c : Config) : List (String × String) :=
  [("api_url", c.APIURL)]
    ++ (if c.AccessToken = "" then [] else [("access_token", c.AccessToken)])
    ++ (if c.RefreshToken = "" then [] else [("refresh_token", c.RefreshToken)])
    ++ (if c.TokenExpiry = "" then [] else [("token_expiry", c.TokenExpiry)])

/-- Field lookup in a parsed JSON object: a missing field unmarshals to the
zero value `""`, as `json.Unmarshal` leaves absent struct fields at their
zero value. -/
def lookupField : List (String × String) → String → String
  | [], _ => ""
  | (k, v) :: rest, key => if k = key then v else lookupField rest key

/-- `json.Unmarshal` of the config file body into a `Config`. -/
def unmarshalConfig (kvs : List (String × String)) : Config :=
  { APIURL := lookupField kvs "api_url"
    AccessToken := lookupField kvs "access_token"
    RefreshToken := lookupField kvs "refresh_token"
    TokenExpiry := lookupField kvs "token_expiry" }

/-- The config file `~/.armyknife/config.json`: `none` when absent. -/
abbrev ConfigFile := Option (List (String × String))

/-- `Load` (source lines 491-518): absent file returns the default config;
otherwise unmarshal and substitute the default API URL when `api_url` is
empty. -/
def Load (fs : ConfigFile) : Config :=
  match fs with
  | none => defaultConfig
  | some kvs =>
    let cfg := unmarshalConfig kvs
    if cfg.APIURL = "" then { cfg with APIURL := defaultConfig.APIURL }
    else cfg

/-- `Config.Save` (source lines 521-537): marshal the config and replace the
whole file with it. -/
def Config.Save (c : Config) : ConfigFile :=
  some (marshalConfig c)

/-- `Config.IsAuthenticated` (source lines 540-542): true iff the access
token is non-empty. -/
def Config.IsAuthenticated (c : Config) : Bool :=
  c.AccessToken != ""

/-- Mutation performed by the direct API-key branch of `loginCmd` (cmd
source lines 167-168) on the loaded config before `Save`: only
`AccessToken` is assigned. -/
def directLoginUpdate (apiKey : String) (c : Config) : Config :=
  { c with AccessToken := apiKey }

/-- Mutation performed by `exchangePATForAPIKey` (cmd source lines 233-235)
on the loaded config before `Save`: `AccessToken` and `TokenExpiry` are
assigned. -/
def patLoginUpdate (apiKey expiresAt : String) (c : Config) : Config :=
  { c with AccessToken := apiKey, TokenExpiry := expiresAt }

/-- Mutation performed by `logoutCmd` (cmd source lines 261-263) on the
loaded config before `Save`: the three auth fields are set to empty. -/
def clearAuth (c : Config) : Config :=
  { c with AccessToken := "", RefreshToken := "", TokenExpiry := "" }

/-- The whole `logout` command on the persisted file: load, clear the auth
fields, save (cmd source lines 255-268). -/
def logoutOp (fs : ConfigFile) : ConfigFile :=
  Config.Save (clearAuth (Load fs))

/-- `isValidAPIKey` (cmd source lines 179-182): length above 3 and the
first three bytes are the prefix `ak_` (modelled on characters; all keys
involved are ASCII). -/
def isValidAPIKey (key : String) : Bool :=
  key.length > 3 && key.take 3 == "ak_"

/-- Outcome of the direct API-key branch of `loginCmd`. -/
inductive LoginOutcome where
  | errRequired
  | errInvalidFormat
  | saved
deriving DecidableEq, Repr

/-- Direct API-key branch of `loginCmd` (cmd source lines 158-175), applied
to the key finally in hand (flag value or prompt input) and the loaded
config: empty key fails with `API key is required`; a key shorter than 10
or failing `isValidAPIKey` fails with `invalid API key format`; otherwise
the key is stored in `AccessToken` and the config saved.  The returned file
is the persisted state after the command (unchanged on failure). -/
def directApiKeyLogin (apiKey : String) (c : Config) (fs : ConfigFile) :
    LoginOutcome × ConfigFile :=
  if apiKey = "" then (LoginOutcome.errRequired, fs)
  else if apiKey.length < 10 || !(isValidAPIKey apiKey) then
    (LoginOutcome.errInvalidFormat, fs)
  else (LoginOutcome.saved, Config.Save (directLoginUpdate apiKey c))

/-- Route chosen by `loginCmd` (cmd source lines 131-143): the
`--github-pat` flag, else the `GITHUB_PAT` environment variable; when the
resulting PAT is non-empty the PAT-exchange is invoked with it, otherwise
the direct API-key flow runs. -/
inductive LoginRoute where
  | patExchange (pat : String)
  | apiKeyFlow (key : String)
deriving DecidableEq, Repr

/-- Dispatch of `loginCmd` between the PAT-exchange and the API-key flow
(cmd source lines 131-143). -/
def loginRoute (patFlag envPAT apiKeyFlag : String) : LoginRoute :=
  let githubPAT := if patFlag = "" then envPAT else patFlag
  if githubPAT ≠ "" then LoginRoute.patExchange githubPAT
  else LoginRoute.apiKeyFlow apiKeyFlag

/-- First externally visible step of `exchangePATForAPIKey` (cmd source
lines 184-204): the function unconditionally marshals `{github_pat: pat}`
and posts it to `{api_url}/auth/pat/exchange` — there is no validation
branch before the request, so no `clientError` case ever arises. -/
inductive PATExchangeStart where
  | clientError (msg : String)
  | networkCall (url : String) (body : List (String × String))
deriving DecidableEq, Repr

/-- What `exchangePATForAPIKey` does before reading the response: always a
network call (cmd source lines 188-200). -/
def exchangePATStart (apiURL pat : String) : PATExchangeStart :=
  PATExchangeStart.networkCall (apiURL ++ "/auth/pat/exchange")
    [("github_pat", pat)]

/-- The day count of `formatExpiryDate` (cmd source lines 319-321):
`int(duration.Hours() / 24)` where `duration = expiry - now`.  Go's float
division followed by `int` truncation toward zero equals truncating integer
division of the duration in seconds by 86400 (exact for the durations the
claims concern). -/
def expiryDays (expirySec nowSec : Int) : Int :=
  Int.tdiv (expirySec - nowSec) 86400

/-- The parenthesized suffix chosen by `formatExpiryDate` (cmd source lines
323-331) from the day count. -/
def expiryTag (expirySec nowSec : Int) : String :=
  let days := expiryDays expirySec nowSec
  if days < 0 then "(EXPIRED)"
  else if days = 0 then "(expires today)"
  else if days = 1 then "(1 day from now)"
  else "(" ++ toString days ++ " days from now)"

/-- `formatExpiryDate` on a parseable timestamp (cmd source lines 316-331):
the calendar rendering `expiryTime.Format(...)` is passed in already
formatted (pure presentation), followed by a space and the day-count tag. -/
def formatExpiryDate (formattedDate : String) (expirySec nowSec : Int) :
    String :=
  formattedDate ++ " " ++ expiryTag expirySec nowSec

/-- Modelled from the spec: `TokenRecord` (spec section 3) with fields
`access_token`, `refresh_token`, `token_type`, `expires_at`.  The source
has no such standalone record type; the persisted `Config` carries no
`token_type` counterpart. -/
structure TokenRecord where
  access_token : String
  refresh_token : String
  token_type : String
  expires_at : String
deriving DecidableEq, Repr

/-- Persisting a token record, as `AuthenticateDeviceFlow` does (client
source lines 54-58): `access_token`, `refresh_token` and the absolute
expiry are copied into the config, which is then saved; the token type is
not copied anywhere. -/
def saveTokenRecord (t : TokenRecord) (c : Config) : ConfigFile :=
  Config.Save
    { c with
        AccessToken := t.access_token
        RefreshToken := t.refresh_token
        TokenExpiry := t.expires_at }

/-- Modelled from the spec: reading the persisted `TokenRecord` back via
`Load` (spec section 4.4).  The config file stores no token type, so that
field of the loaded record is necessarily empty. -/
def loadTokenRecord (fs : ConfigFile) : TokenRecord :=
  let c := Load fs
  { access_token := c.AccessToken
    refresh_token := c.RefreshToken
    token_type := ""
    expires_at := c.TokenExpiry }

/-- A token-check response the poll loop retries on: `error` is exactly
`authorization_pending` or `slow_down`. -/
def retriableResp (r : TokenResponse) : Prop :=
  r.error = "authorization_pending" ∨ r.error = "slow_down"

instance (r : TokenResponse) : Decidable (retriableResp r) := by
  unfold retriableResp; infer_instance

theorem checkToken_of_error_empty (r : TokenResponse) (h : r.error = "") :
    checkToken r = Except.ok r := by
  simp [checkToken, h]

theorem checkToken_of_retriable (r : TokenResponse) (h : retriableResp r) :
    checkToken r = Except.error r.error := by
  rcases h with h | h <;> simp [checkToken, h]

theorem checkToken_of_fatal (r : TokenResponse) (hne : r.error ≠ "")
    (hnr : ¬ retriableResp r) :
    checkToken r = Except.error ("token error: " ++ r.error) := by
  unfold checkToken
  unfold retriableResp at hnr
  rw [if_pos hne, if_neg hnr]

theorem checkToken_ok_inv (r tok : TokenResponse)
    (h : checkToken r = Except.ok tok) : tok = r ∧ r.error = "" := by
  by_cases he : r.error = ""
  · rw [checkToken_of_error_empty r he] at h
    exact ⟨(Except.ok.injEq _ _ ▸ h).symm, he⟩
  · unfold checkToken at h
    rw [if_pos he] at h
    split at h <;> exact absurd h (by simp)

theorem tokenError_ne_pending (x : String) :
    "token error: " ++ x ≠ "authorization_pending" := by
  intro h
  have h2 : ("token error: " ++ x).data = "authorization_pending".data := by
    rw [h]
  obtain ⟨l⟩ := x
  simp [String.data] at h2

theorem tokenError_ne_slow (x : String) :
    "token error: " ++ x ≠ "slow_down" := by
  intro h
  have h2 : ("token error: " ++ x).data = "slow_down".data := by rw [h]
  obtain ⟨l⟩ := x
  simp [String.data] at h2

theorem checkToken_error_retriable_inv (r : TokenResponse) (msg : String)
    (h : checkToken r = Except.error msg)
    (hmsg : msg = "authorization_pending" ∨ msg = "slow_down") :
    retriableResp r ∧ msg = r.error := by
  unfold checkToken at h
  by_cases he : r.error = ""
  · rw [if_neg (by simp [he])] at h
    exact absurd h (by simp)
  · rw [if_pos he] at h
    by_cases hr : retriableResp r
    · rw [if_pos (show r.error = "authorization_pending" ∨ r.error = "slow_down" from hr)] at h
      exact ⟨hr, (Except.error.injEq _ _ ▸ h).symm⟩
    · rw [if_neg (show ¬ (r.error = "authorization_pending" ∨ r.error = "slow_down") from hr)] at h
      have hm : msg = "token error: " ++ r.error := (Except.error.injEq _ _ ▸ h).symm
      rcases hmsg with hp | hs
      · exact absurd (hm ▸ hp) (tokenError_ne_pending r.error)
      · exact absurd (hm ▸ hs) (tokenError_ne_slow r.error)

theorem checkToken_error_fatal_inv (r : TokenResponse) (msg : String)
    (h : checkToken r = Except.error msg)
    (hmsg : ¬ (msg = "authorization_pending" ∨ msg = "slow_down")) :
    r.error ≠ "" ∧ ¬ retriableResp r := by
  unfold checkToken at h
  by_cases he : r.error = ""
  · rw [if_neg (by simp [he])] at h
    exact absurd h (by simp)
  · refine ⟨he, fun hr => ?_⟩
    rw [if_pos he,
      if_pos (show r.error = "authorization_pending" ∨ r.error = "slow_down" from hr)] at h
    have hm : msg = r.error := (Except.error.injEq _ _ ▸ h).symm
    exact hmsg (hm ▸ hr)

theorem pollLoopAux_success_run (resp : Nat → TokenResponse) (i e : Nat) :
    ∀ n k fuel, n < fuel →
      (∀ j, j < n → retriableResp (resp (k + j))) →
      (resp (k + n)).error = "" →
      (k + n + 1) * i ≤ e →
      pollLoopAux resp i e k fuel =
        (PollResult.success (resp (k + n)), k + n) := by
  intro n
  induction n with
  | zero =>
    intro k fuel hfuel hpre hok hle
    obtain ⟨fuel, rfl⟩ : ∃ f, fuel = f + 1 := ⟨fuel - 1, by omega⟩
    simp only [Nat.add_zero] at hok hle ⊢
    simp only [pollLoopAux]
    rw [if_neg (Nat.not_lt.mpr hle)]
    split
    · rename_i tok heq
      obtain ⟨rfl, -⟩ := checkToken_ok_inv _ _ heq
      rfl
    · rename_i msg heq
      rw [checkToken_of_error_empty _ hok] at heq
      exact absurd heq (by simp)
  | succ n ih =>
    intro k fuel hfuel hpre hok hle
    obtain ⟨fuel, rfl⟩ : ∃ f, fuel = f + 1 := ⟨fuel - 1, by omega⟩
    simp only [pollLoopAux]
    have hki : (k + 1) * i ≤ e :=
      le_trans (Nat.mul_le_mul_right i (by omega)) hle
    rw [if_neg (Nat.not_lt.mpr hki)]
    have hr0 : retriableResp (resp k) := by
      simpa using hpre 0 (by omega)
    split
    · rename_i tok heq
      rw [checkToken_of_retriable _ hr0] at heq
      exact absurd heq (by simp)
    · rename_i msg heq
      rw [checkToken_of_retriable _ hr0] at heq
      have hm : msg = (resp k).error := by
        have := Except.error.injEq (α := String) (ε := String)
        injection heq with h2
        exact h2.symm
      rw [if_pos (show msg = "authorization_pending" ∨ msg = "slow_down" from hm ▸ hr0)]
      have hidx : ∀ m, k + 1 + m = k + (m + 1) := fun m => by omega
      have hrun := ih (k + 1) fuel (by omega)
        (fun j hj => by rw [hidx j]; exact hpre (j + 1) (by omega))
        (by rw [hidx n]; exact hok)
        (by rw [hidx n]; exact hle)
      rw [hrun, hidx n]

theorem pollLoopAux_not_fuelOut_bound (resp : Nat → TokenResponse)
    (i e : Nat) (hi : 0 < i) :
    ∀ fuel k, e / i < k + fuel → k * i ≤ e →
      (pollLoopAux resp i e k fuel).1 ≠ PollResult.fuelOut ∧
      ((pollLoopAux resp i e k fuel).2 + 1) * i ≤ e + i := by
  intro fuel
  induction fuel with
  | zero =>
    intro k hf hk
    have : k ≤ e / i := (Nat.le_div_iff_mul_le hi).mpr hk
    omega
  | succ fuel ih =>
    intro k hf hk
    simp only [pollLoopAux]
    by_cases ht : e < (k + 1) * i
    · rw [if_pos ht]
      refine ⟨by simp, ?_⟩
      calc (k + 1) * i = k * i + i := by ring
        _ ≤ e + i := Nat.add_le_add_right hk i
    · rw [if_neg ht]
      have hle : (k + 1) * i ≤ e := Nat.not_lt.mp ht
      split
      · exact ⟨by simp, by simpa using le_trans hle (Nat.le_add_right e i)⟩
      · rename_i msg heq
        split
        · exact ih (k + 1) (by omega) hle
        · exact ⟨by simp, by simpa using le_trans hle (Nat.le_add_right e i)⟩

theorem pollLoopAux_timeout_time (resp : Nat → TokenResponse) (i e : Nat) :
    ∀ fuel k, (pollLoopAux resp i e k fuel).1 = PollResult.timeout →
      e < ((pollLoopAux resp i e k fuel).2 + 1) * i := by
  intro fuel
  induction fuel with
  | zero =>
    intro k h
    exact absurd h (by simp [pollLoopAux])
  | succ fuel ih =>
    intro k h
    simp only [pollLoopAux] at h ⊢
    by_cases ht : e < (k + 1) * i
    · rw [if_pos ht] at h ⊢
      simpa using ht
    · rw [if_neg ht] at h ⊢
      split at h
      · exact absurd h (by simp at h)
      · split at h
        · rename_i msg heq hretr
          rw [if_pos hretr]
          exact ih (k + 1) (by simpa using h)
        · exact absurd h (by simp at h)

theorem pollLoopAux_all_retriable (resp : Nat → TokenResponse)
    (i e : Nat) (hi : 0 < i) (hall : ∀ j, retriableResp (resp j)) :
    ∀ fuel k, e / i < k + fuel → k * i ≤ e →
      (pollLoopAux resp i e k fuel).1 = PollResult.timeout := by
  intro fuel
  induction fuel with
  | zero =>
    intro k hf hk
    have : k ≤ e / i := (Nat.le_div_iff_mul_le hi).mpr hk
    omega
  | succ fuel ih =>
    intro k hf hk
    simp only [pollLoopAux]
    by_cases ht : e < (k + 1) * i
    · rw [if_pos ht]
    · rw [if_neg ht]
      have hle : (k + 1) * i ≤ e := Nat.not_lt.mp ht
      split
      · rename_i tok heq
        rw [checkToken_of_retriable _ (hall k)] at heq
        exact absurd heq (by simp)
      · rename_i msg heq
        rw [checkToken_of_retriable _ (hall k)] at heq
        have hm : msg = (resp k).error := by
          injection heq with h2
          exact h2.symm
        rw [if_pos (show msg = "authorization_pending" ∨ msg = "slow_down" from
          hm ▸ hall k)]
        exact ih (k + 1) (by omega) hle

theorem pollLoopAux_success_iff (resp : Nat → TokenResponse) (i e : Nat)
    (hi : 0 < i) :
    ∀ fuel k, e / i < k + fuel →
      ((∃ tok, (pollLoopAux resp i e k fuel).1 = PollResult.success tok) ↔
        (∃ n, (k + n + 1) * i ≤ e ∧ (resp (k + n)).error = "" ∧
          ∀ j, j < n → retriableResp (resp (k + j)))) := by
  intro fuel
  induction fuel with
  | zero =>
    intro k hf
    constructor
    · rintro ⟨tok, h⟩
      exact absurd h (by simp [pollLoopAux])
    · rintro ⟨n, hle, -, -⟩
      have : k + n + 1 ≤ e / i := (Nat.le_div_iff_mul_le hi).mpr hle
      omega
  | succ fuel ih =>
    intro k hf
    simp only [pollLoopAux]
    by_cases ht : e < (k + 1) * i
    · rw [if_pos ht]
      constructor
      · rintro ⟨tok, h⟩
        exact absurd h (by simp)
      · rintro ⟨n, hle, -, -⟩
        have h1 : (k + 1) * i ≤ (k + n + 1) * i :=
          Nat.mul_le_mul_right i (by omega)
        omega
    · rw [if_neg ht]
      have hle : (k + 1) * i ≤ e := Nat.not_lt.mp ht
      split
      · rename_i tok heq
        obtain ⟨rfl, herr⟩ := checkToken_ok_inv _ _ heq
        constructor
        · intro _
          exact ⟨0, by simpa using hle, by simpa using herr,
            fun j hj => absurd hj (by omega)⟩
        · intro _
          exact ⟨resp k, rfl⟩
      · rename_i msg heq
        by_cases hretr : msg = "authorization_pending" ∨ msg = "slow_down"
        · rw [if_pos hretr]
          obtain ⟨hr0, hmsg⟩ := checkToken_error_retriable_inv _ _ heq hretr
          rw [ih (k + 1) (by omega)]
          constructor
          · rintro ⟨n, hle2, hok2, hpre2⟩
            refine ⟨n + 1, ?_, ?_, ?_⟩
            · have hx : k + (n + 1) + 1 = k + 1 + n + 1 := by omega
              rw [hx]
              exact hle2
            · have hx : k + (n + 1) = k + 1 + n := by omega
              rw [hx]
              exact hok2
            · intro j hj
              match j with
              | 0 => simpa using hr0
              | j + 1 =>
                have hx : k + (j + 1) = k + 1 + j := by omega
                rw [hx]
                exact hpre2 j (by omega)
          · rintro ⟨n, hle2, hok2, hpre2⟩
            match n with
            | 0 =>
              exfalso
              have h0 : (resp k).error = "" := by simpa using hok2
              rcases hr0 with h | h <;> simp [h0] at h
            | n + 1 =>
              refine ⟨n, ?_, ?_, ?_⟩
              · have hx : k + 1 + n + 1 = k + (n + 1) + 1 := by omega
                rw [hx]
                exact hle2
              · have hx : k + 1 + n = k + (n + 1) := by omega
                rw [hx]
                exact hok2
              · intro j hj
                have hx : k + 1 + j = k + (j + 1) := by omega
                rw [hx]
                exact hpre2 (j + 1) (by omega)
        · rw [if_neg hretr]
          obtain ⟨herr, hnr⟩ := checkToken_error_fatal_inv _ _ heq hretr
          constructor
          · rintro ⟨tok, h⟩
            exact absurd h (by simp)
          · rintro ⟨n, hle2, hok2, hpre2⟩
            match n with
            | 0 => exact absurd (by simpa using hok2) herr
            | n + 1 => exact absurd (by simpa using hpre2 0 (by omega)) hnr

/-- C1 (counterexample): the poller does return success on a response whose
body has an empty `error` and an empty `access_token` — `checkToken` only
inspects the `error` field, so the claim that an empty `access_token`
prevents success is false on the code. -/
theorem pollForToken_empty_access_token_cex :
    pollForToken (fun _ => ⟨"", "", "", 0, ""⟩) 1 10 =
      PollResult.success ⟨"", "", "", 0, ""⟩ ∧
    TokenResponse.access_token ⟨"", "", "", 0, ""⟩ = "" := by
  decide

/-- C1 (amended): the device-flow poll loop returns SUCCEEDED with a token
exactly when some token-check response with an empty `error` field is
reached before the deadline after only retriable responses — regardless of
whether its `access_token` is populated. -/
theorem pollForToken_success_iff_error_empty (resp : Nat → TokenResponse)
    (i e : Nat) (hi : 0 < i) :
    (∃ tok, pollForToken resp i e = PollResult.success tok) ↔
    (∃ n, (n + 1) * i ≤ e ∧ (resp n).error = "" ∧
      ∀ j, j < n → retriableResp (resp j)) := by
  have h := pollLoopAux_success_iff resp i e hi (e / i + 2) 0 (by omega)
  unfold pollForToken
  rw [h]
  constructor
  · rintro ⟨n, h1, h2, h3⟩
    exact ⟨n, by simpa using h1, by simpa using h2,
      fun j hj => by simpa using h3 j hj⟩
  · rintro ⟨n, h1, h2, h3⟩
    exact ⟨n, by simpa using h1, by simpa using h2,
      fun j hj => by simpa using h3 j hj⟩

/-- C1 (witness): instantiation of the amended success characterization on
a concrete immediate-success stream. -/
theorem pollForToken_success_iff_error_empty_witness :
    ∃ tok, pollForToken (fun _ => ⟨"tok-B", "", "bearer", 60, ""⟩) 2 10 =
      PollResult.success tok :=
  (pollForToken_success_iff_error_empty
      (fun _ => ⟨"tok-B", "", "bearer", 60, ""⟩) 2 10 (by decide)).mpr
    ⟨0, by decide, by decide, fun j hj => absurd hj (by omega)⟩

/-- C2: any finite prefix of `authorization_pending`/`slow_down` responses
followed by a success response received before the deadline makes the poll
loop return SUCCEEDED with the token of that success response (so no
intermediate failure is ever reported for the retriable responses). -/
theorem pollForToken_retry_transparency (resp : Nat → TokenResponse)
    (i e n : Nat) (hi : 0 < i)
    (hpre : ∀ j, j < n → retriableResp (resp j))
    (hok : (resp n).error = "")
    (hdl : (n + 1) * i ≤ e) :
    pollForToken resp i e = PollResult.success (resp n) := by
  have hn : n < e / i + 2 := by
    have : n + 1 ≤ e / i := (Nat.le_div_iff_mul_le hi).mpr hdl
    omega
  have h := pollLoopAux_success_run resp i e n 0 (e / i + 2) hn
    (fun j hj => by simpa using hpre j hj)
    (by simpa using hok)
    (by simpa using hdl)
  unfold pollForToken
  rw [h]
  simp

/-- C2 (witness): the spec's scenario 1 — `authorization_pending` on the
first two ticks, the token on the third, interval 5 s and lifetime 20 s. -/
theorem pollForToken_retry_transparency_witness :
    pollForToken
      (fun k => if k < 2 then ⟨"", "", "", 0, "authorization_pending"⟩
        else ⟨"tok-A", "", "bearer", 3600, ""⟩) 5 20 =
      PollResult.success ⟨"tok-A", "", "bearer", 3600, ""⟩ :=
  (pollForToken_retry_transparency
      (fun k => if k < 2 then ⟨"", "", "", 0, "authorization_pending"⟩
        else ⟨"tok-A", "", "bearer", 3600, ""⟩) 5 20 2
      (by decide) (by decide) (by decide) (by decide)).trans (by decide)

/-- C3: a token-check response on the first tick with a non-empty `error`
other than the two retriable values makes the loop return the fatal
`token error: <error>` failure at that very tick; the result does not
depend on any later response. -/
theorem pollForToken_fatal_first_tick (resp : Nat → TokenResponse)
    (i e : Nat) (hie : i ≤ e)
    (hne : (resp 0).error ≠ "") (hnr : ¬ retriableResp (resp 0)) :
    pollForToken resp i e =
      PollResult.failure ("token error: " ++ (resp 0).error) ∧
    pollFinishIdx resp i e = 0 ∧
    ∀ resp2 : Nat → TokenResponse, resp2 0 = resp 0 →
      pollForToken resp2 i e =
        PollResult.failure ("token error: " ++ (resp 0).error) := by
  have key : ∀ resp2 : Nat → TokenResponse, resp2 0 = resp 0 →
      pollLoopAux resp2 i e 0 (e / i + 2) =
        (PollResult.failure ("token error: " ++ (resp 0).error), 0) := by
    intro resp2 h0
    rw [show e / i + 2 = (e / i + 1) + 1 from rfl]
    simp only [pollLoopAux]
    rw [if_neg (by simpa using Nat.not_lt.mpr hie)]
    split
    · rename_i tok heq
      rw [h0, checkToken_of_fatal _ hne hnr] at heq
      exact absurd heq (by simp)
    · rename_i msg heq
      rw [h0, checkToken_of_fatal _ hne hnr] at heq
      have hm : msg = "token error: " ++ (resp 0).error := by
        injection heq with h2
        exact h2.symm
      subst hm
      rw [if_neg (by
        rintro (h | h)
        · exact tokenError_ne_pending _ h
        · exact tokenError_ne_slow _ h)]
  refine ⟨?_, ?_, fun resp2 h0 => ?_⟩
  · show (pollLoopAux resp i e 0 (e / i + 2)).1 = _
    rw [key resp rfl]
  · show (pollLoopAux resp i e 0 (e / i + 2)).2 = 0
    rw [key resp rfl]
  · show (pollLoopAux resp2 i e 0 (e / i + 2)).1 = _
    rw [key resp2 h0]

/-- C3 (witness): `access_denied` on the first tick with interval 5 s and
lifetime 20 s fails immediately with the server-provided error string. -/
theorem pollForToken_fatal_first_tick_witness :
    pollForToken (fun _ => ⟨"", "", "", 0, "access_denied"⟩) 5 20 =
      PollResult.failure "token error: access_denied" :=
  ((pollForToken_fatal_first_tick (fun _ => ⟨"", "", "", 0, "access_denied"⟩)
      5 20 (by decide) (by decide) (by decide)).1).trans (by decide)

/-- C4: for positive interval and lifetime the poll loop always terminates
(the fuel bound is never hit), the tick at which it returns is within
`e + i` seconds of loop start, a timeout verdict is only produced once the
wall clock exceeds the deadline, and an all-retriable response stream ends
in timeout.  Tick spacing equal to the interval is the ticker model itself:
the k-th check happens at time `(k+1)*i`. -/
theorem pollForToken_termination_bound (resp : Nat → TokenResponse)
    (i e : Nat) (hi : 0 < i) (he : 0 < e) :
    pollForToken resp i e ≠ PollResult.fuelOut ∧
    (pollFinishIdx resp i e + 1) * i ≤ e + i ∧
    (pollForToken resp i e = PollResult.timeout →
      e < (pollFinishIdx resp i e + 1) * i) ∧
    ((∀ j, retriableResp (resp j)) →
      pollForToken resp i e = PollResult.timeout) := by
  have h1 := pollLoopAux_not_fuelOut_bound resp i e hi (e / i + 2) 0
    (by omega) (by simp)
  have h2 := pollLoopAux_timeout_time resp i e (e / i + 2) 0
  exact ⟨h1.1, h1.2, h2, fun hall =>
    pollLoopAux_all_retriable resp i e hi hall (e / i + 2) 0 (by omega)
      (by simp)⟩

/-- C4 (witness): the spec's scenario 3 — an endless
`authorization_pending` stream with interval 5 s and lifetime 12 s ends in
timeout. -/
theorem pollForToken_termination_bound_witness :
    pollForToken (fun _ => ⟨"", "", "", 0, "authorization_pending"⟩) 5 12 =
      PollResult.timeout :=
  (pollForToken_termination_bound
      (fun _ => ⟨"", "", "", 0, "authorization_pending"⟩) 5 12
      (by decide) (by decide)).2.2.2 (fun _ => Or.inl rfl)

theorem lookup_marshal_api (c : Config) :
    lookupField (marshalConfig c) "api_url" = c.APIURL := by
  by_cases h1 : c.AccessToken = "" <;> by_cases h2 : c.RefreshToken = "" <;>
    by_cases h3 : c.TokenExpiry = "" <;>
    simp [marshalConfig, lookupField, h1, h2, h3]

theorem lookup_marshal_access (c : Config) :
    lookupField (marshalConfig c) "access_token" = c.AccessToken := by
  by_cases h1 : c.AccessToken = "" <;> by_cases h2 : c.RefreshToken = "" <;>
    by_cases h3 : c.TokenExpiry = "" <;>
    simp [marshalConfig, lookupField, h1, h2, h3]

theorem lookup_marshal_refresh (c : Config) :
    lookupField (marshalConfig c) "refresh_token" = c.RefreshToken := by
  by_cases h1 : c.AccessToken = "" <;> by_cases h2 : c.RefreshToken = "" <;>
    by_cases h3 : c.TokenExpiry = "" <;>
    simp [marshalConfig, lookupField, h1, h2, h3]

theorem lookup_marshal_expiry (c : Config) :
    lookupField (marshalConfig c) "token_expiry" = c.TokenExpiry := by
  by_cases h1 : c.AccessToken = "" <;> by_cases h2 : c.RefreshToken = "" <;>
    by_cases h3 : c.TokenExpiry = "" <;>
    simp [marshalConfig, lookupField, h1, h2, h3]

theorem unmarshal_marshal (c : Config) :
    unmarshalConfig (marshalConfig c) = c := by
  unfold unmarshalConfig
  rw [lookup_marshal_api, lookup_marshal_access, lookup_marshal_refresh,
    lookup_marshal_expiry]

theorem Load_Save (c : Config) (h : c.APIURL ≠ "") :
    Load (Config.Save c) = c := by
  unfold Load Config.Save
  simp only [unmarshal_marshal]
  rw [if_neg h]

theorem Load_APIURL_ne (fs : ConfigFile) : (Load fs).APIURL ≠ "" := by
  cases fs with
  | none => decide
  | some kvs =>
    dsimp only [Load]
    split
    · show defaultConfig.APIURL ≠ ""
      decide
    · rename_i h
      exact h

/-- C5 (counterexample): `Save` then `Load` does not return a record equal
to the saved one in every token field: the persisted config has no
`token_type` field, so a record saved with `token_type = "Bearer"` loads
back with an empty token type. -/
theorem save_load_token_type_cex :
    loadTokenRecord (saveTokenRecord
        ⟨"a", "r", "Bearer", "2026-01-01T00:00:00Z"⟩ defaultConfig) =
      ⟨"a", "r", "", "2026-01-01T00:00:00Z"⟩ ∧
    loadTokenRecord (saveTokenRecord
        ⟨"a", "r", "Bearer", "2026-01-01T00:00:00Z"⟩ defaultConfig) ≠
      ⟨"a", "r", "Bearer", "2026-01-01T00:00:00Z"⟩ := by
  decide

/-- C5 (amended): `Save` then `Load` round-trips the three persisted token
fields — `access_token`, `refresh_token` and the stored expiry — for every
record including the all-empty one; `token_type` is not persisted and
always loads back empty. -/
theorem save_load_roundtrip (t : TokenRecord) (c : Config) :
    loadTokenRecord (saveTokenRecord t c) = { t with token_type := "" } := by
  have h := unmarshal_marshal
    { c with
        AccessToken := t.access_token
        RefreshToken := t.refresh_token
        TokenExpiry := t.expires_at }
  unfold loadTokenRecord saveTokenRecord Load Config.Save
  dsimp only
  rw [h]
  split <;> rfl

/-- C6 (counterexample): a later successful login does not overwrite the
whole record — after a direct API-key login the previously persisted
refresh token and expiry survive, and after a PAT exchange the previous
refresh token survives. -/
theorem login_refresh_token_retained_cex :
    (Load (Config.Save (directLoginUpdate "ak_newkey123"
        ⟨"https://u.example", "ak_oldkey999", "old-refresh",
          "old-expiry"⟩))).RefreshToken = "old-refresh" ∧
    (Load (Config.Save (directLoginUpdate "ak_newkey123"
        ⟨"https://u.example", "ak_oldkey999", "old-refresh",
          "old-expiry"⟩))).TokenExpiry = "old-expiry" ∧
    (Load (Config.Save (patLoginUpdate "ak_newkey456" "2027-01-01T00:00:00Z"
        ⟨"https://u.example", "ak_oldkey999", "old-refresh",
          "old-expiry"⟩))).RefreshToken = "old-refresh" := by
  decide

/-- C6 (amended): a direct API-key login persists a record that differs
from the previous one only in `access_token`; a PAT exchange persists one
that differs only in `access_token` and `token_expiry`; in both cases
`refresh_token` retains the previously persisted value (the store itself
holds at most one record, the single config file). -/
theorem login_update_fields (key exp : String) (c : Config)
    (h : c.APIURL ≠ "") :
    Load (Config.Save (directLoginUpdate key c)) =
      { c with AccessToken := key } ∧
    Load (Config.Save (patLoginUpdate key exp c)) =
      { c with AccessToken := key, TokenExpiry := exp } :=
  ⟨Load_Save _ h, Load_Save _ h⟩

/-- C6 (witness): the amended overwrite behaviour at a concrete previous
record. -/
theorem login_update_fields_witness :
    Load (Config.Save (directLoginUpdate "ak_k1234567"
        ⟨"https://u.example", "old", "oldR", "oldE"⟩)) =
      ⟨"https://u.example", "ak_k1234567", "oldR", "oldE"⟩ ∧
    Load (Config.Save (patLoginUpdate "ak_k1234567" "2027-01-01"
        ⟨"https://u.example", "old", "oldR", "oldE"⟩)) =
      ⟨"https://u.example", "ak_k1234567", "oldR", "2027-01-01"⟩ :=
  login_update_fields "ak_k1234567" "2027-01-01"
    ⟨"https://u.example", "old", "oldR", "oldE"⟩ (by decide)

/-- C7: logout clears all three persisted auth fields, is idempotent on the
persisted file, and leaves `IsAuthenticated` false. -/
theorem logout_clear_idempotent (fs : ConfigFile) :
    logoutOp (logoutOp fs) = logoutOp fs ∧
    (Load (logoutOp fs)).AccessToken = "" ∧
    (Load (logoutOp fs)).RefreshToken = "" ∧
    (Load (logoutOp fs)).TokenExpiry = "" ∧
    Config.IsAuthenticated (Load (logoutOp fs)) = false := by
  have hld : Load (logoutOp fs) = clearAuth (Load fs) :=
    Load_Save _ (Load_APIURL_ne fs)
  constructor
  · show Config.Save (clearAuth (Load (logoutOp fs))) = logoutOp fs
    rw [hld]
    rfl
  · rw [hld]
    exact ⟨rfl, rfl, rfl, rfl⟩

/-- C8 (counterexample): `exchangePATForAPIKey` reached with an empty PAT
does not fail client-side — it unconditionally issues the HTTP POST, with
the empty PAT in the body.  The non-empty guard is not part of the
exchange operation. -/
theorem exchangePAT_empty_still_network_cex :
    exchangePATStart "https://test.armyknifelabs.com/api/v1" "" =
      PATExchangeStart.networkCall
        "https://test.armyknifelabs.com/api/v1/auth/pat/exchange"
        [("github_pat", "")] := by
  decide

/-- C8 (amended): the non-empty check on the PAT lives in the caller
`loginCmd`, not in the exchange operation: whenever `loginCmd` routes to
the PAT exchange, the PAT it passes is non-empty (while
`exchangePATForAPIKey` itself performs no validation before its network
call). -/
theorem loginCmd_pat_guard (patFlag envPAT apiKeyFlag pat : String)
    (h : loginRoute patFlag envPAT apiKeyFlag = LoginRoute.patExchange pat) :
    pat ≠ "" := by
  unfold loginRoute at h
  dsimp only at h
  by_cases hp : patFlag = ""
  · rw [if_pos hp] at h
    by_cases he2 : envPAT ≠ ""
    · rw [if_pos he2] at h
      injection h with h2
      rw [← h2]
      exact he2
    · rw [if_neg he2] at h
      exact absurd h (by simp)
  · rw [if_neg hp, if_pos hp] at h
    injection h with h2
    rw [← h2]
    exact hp

/-- C8 (witness): a login with a PAT flag routes to the exchange with that
non-empty PAT. -/
theorem loginCmd_pat_guard_witness :
    loginRoute "ghp_x" "" "" = LoginRoute.patExchange "ghp_x" ∧
    ("ghp_x" : String) ≠ "" :=
  ⟨by decide, loginCmd_pat_guard "ghp_x" "" "" "ghp_x" (by decide)⟩

theorem expiryDays_neg_of_day_past (e n : Int) (h : e + 86400 ≤ n) :
    expiryDays e n < 0 := by
  unfold expiryDays
  have h1 : (e - n).tdiv 86400 = -((-(e - n)).tdiv 86400) := by
    rw [← Int.neg_tdiv, Int.neg_neg]
  rw [h1, Int.tdiv_eq_ediv (by omega) (by omega)]
  omega

theorem expiryDays_zero_of_recent_past (e n : Int) (h1 : e < n)
    (h2 : n < e + 86400) : expiryDays e n = 0 := by
  unfold expiryDays
  have h3 : (e - n).tdiv 86400 = -((-(e - n)).tdiv 86400) := by
    rw [← Int.neg_tdiv, Int.neg_neg]
  rw [h3, Int.tdiv_eq_ediv (by omega) (by omega)]
  omega

/-- C9 (counterexample): a timestamp strictly in the past but within 24
hours of now is not marked `(EXPIRED)` — the truncating day count is 0, so
it formats as `(expires today)`. -/
theorem formatExpiryDate_recent_past_cex :
    formatExpiryDate "D" (-3600) 0 = "D (expires today)" ∧
    formatExpiryDate "D" (-3600) 0 ≠ "D (EXPIRED)" := by
  decide

/-- C9 (amended): a timestamp equal to now formats with the suffix
`(expires today)`, one exactly a day ahead with `(1 day from now)`, one at
least a full day in the past with `(EXPIRED)`; a past timestamp within 24
hours of now also formats as `(expires today)`. -/
theorem formatExpiryDate_boundaries (d : String) (e n : Int) :
    formatExpiryDate d n n = d ++ " " ++ "(expires today)" ∧
    formatExpiryDate d (n + 86400) n = d ++ " " ++ "(1 day from now)" ∧
    (e + 86400 ≤ n → formatExpiryDate d e n = d ++ " " ++ "(EXPIRED)") ∧
    (e < n → n < e + 86400 →
      formatExpiryDate d e n = d ++ " " ++ "(expires today)") := by
  refine ⟨?_, ?_, fun h => ?_, fun h1 h2 => ?_⟩
  · have h0 : expiryDays n n = 0 := by
      unfold expiryDays
      rw [show n - n = (0 : Int) from by omega]
      decide
    simp [formatExpiryDate, expiryTag, h0]
  · have h0 : expiryDays (n + 86400) n = 1 := by
      unfold expiryDays
      rw [show n + 86400 - n = (86400 : Int) from by omega]
      decide
    simp [formatExpiryDate, expiryTag, h0]
  · have h0 := expiryDays_neg_of_day_past e n h
    simp [formatExpiryDate, expiryTag, h0]
  · have h0 := expiryDays_zero_of_recent_past e n h1 h2
    simp [formatExpiryDate, expiryTag, h0]

/-- C9 (witness): the amended boundaries at now = 0 — a full day past is
EXPIRED, one hour past still formats as expiring today. -/
theorem formatExpiryDate_boundaries_witness :
    formatExpiryDate "D" (-86400) 0 = "D" ++ " " ++ "(EXPIRED)" ∧
    formatExpiryDate "D" (-3601) 0 = "D" ++ " " ++ "(expires today)" :=
  ⟨(formatExpiryDate_boundaries "D" (-86400) 0).2.2.1 (by omega),
   (formatExpiryDate_boundaries "D" (-3601) 0).2.2.2 (by omega) (by omega)⟩

/-- C10: for a supplied (non-empty) API key the direct login branch rejects
with the invalid-format error, leaving the persisted file unchanged,
unless the key is at least 10 characters and starts with `ak_`; such a key
is accepted and persisted as the access token. -/
theorem directApiKeyLogin_validation (key : String) (c : Config)
    (fs : ConfigFile) (hk : key ≠ "") :
    (¬ (10 ≤ key.length ∧ key.take 3 = "ak_") →
      directApiKeyLogin key c fs = (LoginOutcome.errInvalidFormat, fs)) ∧
    (10 ≤ key.length → key.take 3 = "ak_" →
      directApiKeyLogin key c fs =
        (LoginOutcome.saved, Config.Save (directLoginUpdate key c))) := by
  unfold directApiKeyLogin
  rw [if_neg hk]
  by_cases hc : 10 ≤ key.length ∧ key.take 3 = "ak_"
  · obtain ⟨h10, hp⟩ := hc
    have hb : (decide (key.length < 10) || !(isValidAPIKey key)) = false := by
      simp [isValidAPIKey, hp]
      omega
    rw [if_neg (by rw [hb]; simp)]
    exact ⟨fun hrej => absurd ⟨h10, hp⟩ hrej, fun _ _ => rfl⟩
  · have hb : (decide (key.length < 10) || !(isValidAPIKey key)) = true := by
      rcases Nat.lt_or_ge key.length 10 with hl | hl
      · simp [hl]
      · have hp : ¬ (key.take 3 = "ak_") := fun hp => hc ⟨hl, hp⟩
        simp [isValidAPIKey, hp]
    rw [if_pos (by rw [hb])]
    exact ⟨fun _ => rfl, fun h10 hp => absurd ⟨h10, hp⟩ hc⟩

/-- C10 (witness): a malformed key is rejected with the file untouched; a
well-formed key is persisted. -/
theorem directApiKeyLogin_validation_witness :
    directApiKeyLogin "bad_key_123" defaultConfig none =
      (LoginOutcome.errInvalidFormat, none) ∧
    directApiKeyLogin "ak_goodkey1" defaultConfig none =
      (LoginOutcome.saved,
        Config.Save (directLoginUpdate "ak_goodkey1" defaultConfig)) :=
  ⟨(directApiKeyLogin_validation "bad_key_123" defaultConfig none
      (by decide)).1 (by decide),
   (directApiKeyLogin_validation "ak_goodkey1" defaultConfig none
      (by decide)).2 (by decide) (by decide)⟩

end ArmyKnife
